import Mathlib

/-!
Shallow embedding of `relayer/src/link/cli.rs` from the hermes packet relayer:
the operational-data scheduling queues, the connection-delay resolver
`wait_for_conn_delay`, and the two interactive relay commands
`relay_recv_packet_and_timeout_messages` and `relay_ack_packet_messages`.

Modelling choices:
* Durations and instants are abstract clock units (`Nat`); the local clock is
  threaded explicitly and `thread::sleep d` advances it by `d`.
* Fallible Rust code returning `Result<_, LinkError>` becomes
  `Except`-valued Lean functions; a Rust `panic` or `expect` (a process
  abort, not an error value) becomes the distinct `RError.panic` outcome.
* The recursion of `wait_for_conn_delay` is fuel-indexed; running out of
  fuel yields `RError.outOfFuel`, which corresponds to no source behaviour.
* Every capability invocation, sleep and queue fetch is recorded in an
  ordered trace of `Call`s, so that statements about call order ("before any
  query", "without re-querying height") are expressible.
-/

namespace HermesLink

/-- Side of a relay path: the source or the destination chain. -/
inductive Side
  | src
  | dst
  deriving DecidableEq, Repr

/-- Abstract carrier for `crate::link::error::LinkError` (defined outside the
provided sources); only its identity matters here. -/
structure LinkError where
  code : Nat
  deriving DecidableEq, Repr

/-- Outcomes of the embedded fallible code. `link e` models an ordinary
`Err(LinkError)` return value; `panic msg` models a Rust `panic` or
`expect msg` — an unrecoverable abort that terminates the process rather
than returning an error value; `outOfFuel` marks exhaustion of the explicit
recursion fuel of the embedding and corresponds to no source behaviour. -/
inductive RError
  | link (e : LinkError)
  | panic (msg : String)
  | outOfFuel
  deriving DecidableEq, Repr

/-- Modelled from the spec: `OperationalData` lives in
`relayer/src/link/operational_data.rs`, which is not among the provided
sources. Per spec section 3 it is a directed batch of relay messages
(`target`, `batch` — the two fields `cli.rs` reads) tagged with its
connection-delay requirement, a pair of a minimum wall-clock duration and a
minimum number of block heights, counted from the time and height at which
the originating event was observed. -/
structure OperationalData where
  target : Side
  batch : List Nat
  delay_duration : Nat
  delay_blocks : Nat
  scheduled_time : Nat
  scheduled_height : Nat
  deriving DecidableEq, Repr

/-- Capability oracle for one chain side, indexed by the caller's local
clock: `chain_time` models `src_time_latest`/`dst_time_latest`,
`max_block_time` models `src_max_block_time`/`dst_max_block_time`, and
`latest_height` models `src_latest_height`/`dst_latest_height`.
Each call may fail with a `LinkError`. -/
structure ChainEnv where
  chain_time : Nat → Except LinkError Nat
  max_block_time : Nat → Except LinkError Nat
  latest_height : Nat → Except LinkError Nat

/-- Trace entries: every capability invocation, sleep and queue fetch the
embedded functions perform, in order. -/
inductive Call
  | chain_time (s : Side) (t : Nat)
  | latest_height (s : Side) (t : Nat)
  | max_block_time (s : Side) (t : Nat)
  | sleep (d : Nat)
  | unreceived_packets
  | unreceived_acknowledgements
  | query_packet_events (seqs : List Nat) (h : Nat)
  | relay_from_events (chunk : List Nat)
  | events_to_operational_data (chunk : List Nat)
  | try_fetch
  | fetch_scheduled
  | relay_from_operational_data (od : OperationalData)
  deriving DecidableEq, Repr

/-- Whether a trace entry is a sleep. -/
def Call.isSleep : Call → Bool
  | .sleep _ => true
  | _ => false

/-- Whether a trace entry is a chain-time query (the first call of every
evaluation of `conn_delay_remaining`, hence a count of evaluations). -/
def Call.isChainTime : Call → Bool
  | .chain_time _ _ => true
  | _ => false

/-- Whether a trace entry is a latest-height query. -/
def Call.isLatestHeight : Call → Bool
  | .latest_height _ _ => true
  | _ => false

/-- Whether a trace entry is a capability call bound to the given side. -/
def Call.onSide : Call → Side → Bool
  | .chain_time s _, s2 => s == s2
  | .latest_height s _, s2 => s == s2
  | .max_block_time s _, s2 => s == s2
  | _, _ => false

/-- Modelled from the spec: `OperationalData::conn_delay_remaining` lives in
`relayer/src/link/operational_data.rs`, not among the provided sources. Per
spec section 4.1, given the chain-time and latest-height capabilities it
computes `(time_remaining, blocks_remaining)` independently: each is the
positive remainder of the corresponding delay requirement, clamped to zero
once elapsed (`Nat` subtraction clamps). It fails if a capability fails. -/
def conn_delay_remaining (env : ChainEnv) (s : Side) (odata : OperationalData)
    (t : Nat) : Except LinkError (Nat × Nat) × List Call :=
  match env.chain_time t with
  | .error e => (.error e, [.chain_time s t])
  | .ok now =>
    match env.latest_height t with
    | .error e => (.error e, [.chain_time s t, .latest_height s t])
    | .ok h =>
      (.ok (odata.scheduled_time + odata.delay_duration - now,
            odata.scheduled_height + odata.delay_blocks - h),
       [.chain_time s t, .latest_height s t])

/-- Largest value representable in the resolver's working width `u32`. -/
def U32_MAX : Nat := 4294967295

/-- Embedding of `wait_for_conn_delay` (cli.rs lines 177-235). The ternary
case split on `(time_left, blocks_left)`: `(0, 0)` returns the data;
`(0, b)` first converts `b` to `u32` — `expect` aborts when `b` exceeds
`U32_MAX` — then re-queries `max_expected_time_per_block` and sleeps
`b * mbt`; `(T, _)` with `T` positive sleeps `T` and recurses. Returns the
outcome, the final local clock, and the trace. -/
def wait_for_conn_delay (env : ChainEnv) (s : Side) :
    Nat → OperationalData → Nat → Except RError OperationalData × Nat × List Call
  | 0, _, t => (.error .outOfFuel, t, [])
  | fuel + 1, odata, t =>
    let c := conn_delay_remaining env s odata t
    match c.1 with
    | .error e => (.error (.link e), t, c.2)
    | .ok (time_left, blocks_left) =>
      if time_left = 0 then
        if blocks_left = 0 then
          (.ok odata, t, c.2)
        else
          if blocks_left ≤ U32_MAX then
            match env.max_block_time t with
            | .error e => (.error (.link e), t, c.2 ++ [.max_block_time s t])
            | .ok mbt =>
              (.ok odata, t + blocks_left * mbt,
               c.2 ++ [.max_block_time s t, .sleep (blocks_left * mbt)])
          else
            (.error (.panic ("blocks_left > u32::MAX")), t, c.2)
      else
        let r := wait_for_conn_delay env s fuel odata (t + time_left)
        (r.1, r.2.1, c.2 ++ [.sleep time_left] ++ r.2.2)

/-- Embedding of `RelayPath`: the two FIFO operational-data queues, the
channel's connection delay, and the capability oracles of each side. -/
structure RelayPath where
  src_operational_data : List OperationalData
  dst_operational_data : List OperationalData
  connection_delay : Nat
  src_env : ChainEnv
  dst_env : ChainEnv

/-- Embedding of `RelayPath::fetch_scheduled_operational_data` (cli.rs lines
27-47): pop the front of `src_operational_data` and resolve it against the
source side's capabilities; else pop the front of `dst_operational_data` and
resolve against the destination side's; else return `none` successfully.
The pop happens before resolution, so the returned `RelayPath` has the
front removed even when resolution fails. -/
def fetch_scheduled_operational_data (rp : RelayPath) (fuel t : Nat) :
    Except RError (Option OperationalData) × RelayPath × Nat × List Call :=
  match rp.src_operational_data with
  | odata :: rest =>
    let r := wait_for_conn_delay rp.src_env .src fuel odata t
    (r.1.map some, { rp with src_operational_data := rest }, r.2.1,
     [.fetch_scheduled] ++ r.2.2)
  | [] =>
    match rp.dst_operational_data with
    | odata :: rest =>
      let r := wait_for_conn_delay rp.dst_env .dst fuel odata t
      (r.1.map some, { rp with dst_operational_data := rest }, r.2.1,
       [.fetch_scheduled] ++ r.2.2)
    | [] => (.ok none, rp, t, [.fetch_scheduled])

/-- Modelled from the spec: `try_fetch_scheduled_operational_data` is not
among the provided sources. Per spec section 4.3 it is the non-blocking
variant: it drains whatever is currently queued on both sides without
invoking the blocking resolver, returning `(src_ready, dst_ready)`. -/
def try_fetch_scheduled_operational_data (rp : RelayPath) :
    (List OperationalData × List OperationalData) × RelayPath × List Call :=
  ((rp.src_operational_data, rp.dst_operational_data),
   { rp with src_operational_data := [], dst_operational_data := [] },
   [.try_fetch])

/-- Capability oracles consumed by the `Link` commands (spec section 6):
the unreceived-sequence queries, the chunked event query, the direct
submission capabilities, and the ingestion oracle deciding which
operational data a chunk produces for each side. -/
structure LinkEnv where
  unreceived_packets : Except LinkError (List Nat × Nat)
  unreceived_acknowledgements : Except LinkError (List Nat × Nat)
  query_packet_events_with : List Nat → Nat → List (List Nat)
  relay_from_events : List Nat → Except LinkError (List Nat)
  events_to_od : List Nat → Except LinkError (List OperationalData × List OperationalData)
  relay_from_operational_data : OperationalData → Except LinkError (List Nat)

/-- Modelled from the spec: `RelayPath::events_to_operational_data` is not
among the provided sources. Per spec sections 4.5 and 6 it converts a chunk
of events into operational data and enqueues it into the owning path's
queues (FIFO push-back); which side each datum lands on is decided by the
`events_to_od` oracle. -/
def events_to_operational_data (lenv : LinkEnv) (rp : RelayPath)
    (chunk : List Nat) : Except LinkError Unit × RelayPath × List Call :=
  match lenv.events_to_od chunk with
  | .error e => (.error e, rp, [.events_to_operational_data chunk])
  | .ok (s_ods, d_ods) =>
    (.ok (),
     { rp with
        src_operational_data := rp.src_operational_data ++ s_ods,
        dst_operational_data := rp.dst_operational_data ++ d_ods },
     [.events_to_operational_data chunk])

/-- Embedding of `Link`: the commands operate on the `a_to_b` path. -/
structure Link where
  a_to_b : RelayPath

/-- Per-chunk loop of `relay_recv_packet_and_timeout_messages` (cli.rs lines
87-97): relay each chunk directly via `relay_from_events`, accumulating the
emitted events; a failure aborts and drops the accumulated events. -/
def relay_chunks_recv (lenv : LinkEnv) :
    List (List Nat) → Except RError (List Nat) × List Call
  | [] => (.ok [], [])
  | c :: cs =>
    match lenv.relay_from_events c with
    | .error e => (.error (.link e), [.relay_from_events c])
    | .ok evs =>
      let r := relay_chunks_recv lenv cs
      (r.1.map (fun rest => evs ++ rest), [.relay_from_events c] ++ r.2)

/-- Embedding of `Link::relay_recv_packet_and_timeout_messages` (cli.rs lines
52-100): abort with a panic when the connection delay is non-zero; query the
unreceived packet sequences; return `[]` when empty; otherwise relay every
event chunk directly. -/
def relay_recv_packet_and_timeout_messages (lenv : LinkEnv) (link : Link) :
    Except RError (List Nat) × List Call :=
  if link.a_to_b.connection_delay ≠ 0 then
    (.error (.panic ("please use the passive relaying mode (`hermes start`)")), [])
  else
    match lenv.unreceived_packets with
    | .error e => (.error (.link e), [.unreceived_packets])
    | .ok (sequences, src_response_height) =>
      if sequences.isEmpty then (.ok [], [.unreceived_packets])
      else
        let chunks := lenv.query_packet_events_with sequences src_response_height
        let r := relay_chunks_recv lenv chunks
        (r.1, [.unreceived_packets,
               .query_packet_events sequences src_response_height] ++ r.2)

/-- Relay a list of operational data in order via
`relay_from_operational_data`, accumulating the emitted events; a failure
aborts (cli.rs lines 152-163). -/
def relay_od_list (lenv : LinkEnv) :
    List OperationalData → Except RError (List Nat) × List Call
  | [] => (.ok [], [])
  | od :: ods =>
    match lenv.relay_from_operational_data od with
    | .error e => (.error (.link e), [.relay_from_operational_data od])
    | .ok evs =>
      let r := relay_od_list lenv ods
      (r.1.map (fun rest => evs ++ rest),
       [.relay_from_operational_data od] ++ r.2)

/-- Per-chunk loop of `relay_ack_packet_messages` (cli.rs lines 139-164):
convert the chunk to operational data and enqueue it, drain both queues with
the non-blocking fetch, then relay the destination-bound batches followed by
the source-bound batches. -/
def relay_chunks_ack (lenv : LinkEnv) :
    RelayPath → List (List Nat) → Except RError (List Nat) × RelayPath × List Call
  | rp, [] => (.ok [], rp, [])
  | rp, c :: cs =>
    match events_to_operational_data lenv rp c with
    | (.error e, rp1, tr1) => (.error (.link e), rp1, tr1)
    | (.ok _, rp1, tr1) =>
      let tf := try_fetch_scheduled_operational_data rp1
      let rd := relay_od_list lenv tf.1.2
      match rd.1 with
      | .error e => (.error e, tf.2.1, tr1 ++ tf.2.2 ++ rd.2)
      | .ok evs_d =>
        let rs := relay_od_list lenv tf.1.1
        match rs.1 with
        | .error e => (.error e, tf.2.1, tr1 ++ tf.2.2 ++ rd.2 ++ rs.2)
        | .ok evs_s =>
          let r := relay_chunks_ack lenv tf.2.1 cs
          (r.1.map (fun rest => evs_d ++ evs_s ++ rest), r.2.1,
           tr1 ++ tf.2.2 ++ rd.2 ++ rs.2 ++ r.2.2)

/-- Final safety drain of `relay_ack_packet_messages` (cli.rs lines 166-171):
repeatedly call the blocking scheduled fetch, relaying each returned batch,
until it returns `none`; `dfuel` bounds the iterations of the embedding. -/
def drain_loop (lenv : LinkEnv) :
    Nat → RelayPath → Nat → Nat → Except RError (List Nat) × RelayPath × Nat × List Call
  | 0, rp, t, _ => (.error .outOfFuel, rp, t, [])
  | dfuel + 1, rp, t, rfuel =>
    match fetch_scheduled_operational_data rp rfuel t with
    | (.error e, rp1, t1, tr) => (.error e, rp1, t1, tr)
    | (.ok none, rp1, t1, tr) => (.ok [], rp1, t1, tr)
    | (.ok (some odata), rp1, t1, tr) =>
      match lenv.relay_from_operational_data odata with
      | .error e => (.error (.link e), rp1, t1,
                     tr ++ [.relay_from_operational_data odata])
      | .ok evs =>
        let r := drain_loop lenv dfuel rp1 t1 rfuel
        (r.1.map (fun rest => evs ++ rest), r.2.1, r.2.2.1,
         tr ++ [.relay_from_operational_data odata] ++ r.2.2.2)

/-- Embedding of `Link::relay_ack_packet_messages` (cli.rs lines 103-174):
abort with a panic when the connection delay is non-zero; query the
unreceived acknowledgement sequences; return `[]` when empty; otherwise
process every chunk through the enqueue-then-drain loop and finish with the
blocking safety drain. -/
def relay_ack_packet_messages (lenv : LinkEnv) (link : Link)
    (rfuel dfuel t : Nat) :
    Except RError (List Nat) × Link × Nat × List Call :=
  if link.a_to_b.connection_delay ≠ 0 then
    (.error (.panic ("please use the passive relaying mode (`hermes start`)")),
     link, t, [])
  else
    match lenv.unreceived_acknowledgements with
    | .error e => (.error (.link e), link, t, [.unreceived_acknowledgements])
    | .ok (sequences, src_response_height) =>
      if sequences.isEmpty then
        (.ok [], link, t, [.unreceived_acknowledgements])
      else
        let chunks := lenv.query_packet_events_with sequences src_response_height
        let rc := relay_chunks_ack lenv link.a_to_b chunks
        match rc.1 with
        | .error e =>
          (.error e, { a_to_b := rc.2.1 }, t,
           [.unreceived_acknowledgements,
            .query_packet_events sequences src_response_height] ++ rc.2.2)
        | .ok evs =>
          let dr := drain_loop lenv dfuel rc.2.1 t rfuel
          (dr.1.map (fun rest => evs ++ rest), { a_to_b := dr.2.1 }, dr.2.2.1,
           [.unreceived_acknowledgements,
            .query_packet_events sequences src_response_height] ++ rc.2.2 ++ dr.2.2.2)

/-! Helper lemmas about `conn_delay_remaining` and `wait_for_conn_delay`. -/

/-- When `conn_delay_remaining` succeeds, its trace is exactly one
chain-time query followed by one latest-height query. -/
theorem cdr_ok_trace (env : ChainEnv) (s : Side) (od : OperationalData)
    (t : Nat) (v : Nat × Nat)
    (h : (conn_delay_remaining env s od t).1 = .ok v) :
    (conn_delay_remaining env s od t).2
      = [Call.chain_time s t, Call.latest_height s t] := by
  unfold conn_delay_remaining at h ⊢
  cases hct : env.chain_time t with
  | error e => simp [hct] at h
  | ok now =>
    cases hlh : env.latest_height t with
    | error e => simp [hct, hlh] at h
    | ok hh => simp [hct, hlh]

/-- One-step unfolding of `wait_for_conn_delay` when the delay computation
succeeds with the pair `(a, b)`. -/
theorem wfc_succ_ok (env : ChainEnv) (s : Side) (od : OperationalData)
    (t fuel a b : Nat)
    (h : (conn_delay_remaining env s od t).1 = .ok (a, b)) :
    wait_for_conn_delay env s (fuel + 1) od t
      = if a = 0 then
          if b = 0 then
            (.ok od, t, [Call.chain_time s t, Call.latest_height s t])
          else
            if b ≤ U32_MAX then
              match env.max_block_time t with
              | .error e =>
                (.error (.link e), t,
                 [Call.chain_time s t, Call.latest_height s t,
                  Call.max_block_time s t])
              | .ok mbt =>
                (.ok od, t + b * mbt,
                 [Call.chain_time s t, Call.latest_height s t,
                  Call.max_block_time s t, Call.sleep (b * mbt)])
            else
              (.error (.panic ("blocks_left > u32::MAX")), t,
               [Call.chain_time s t, Call.latest_height s t])
        else
          ((wait_for_conn_delay env s fuel od (t + a)).1,
           (wait_for_conn_delay env s fuel od (t + a)).2.1,
           [Call.chain_time s t, Call.latest_height s t, Call.sleep a]
             ++ (wait_for_conn_delay env s fuel od (t + a)).2.2) := by
  have htr := cdr_ok_trace env s od t (a, b) h
  have hfull : conn_delay_remaining env s od t
      = (.ok (a, b), [Call.chain_time s t, Call.latest_height s t]) :=
    Prod.ext h htr
  simp only [wait_for_conn_delay, hfull]
  simp

/-- C8: for every operational data whose remaining time delay and remaining
block delay are both zero, the delay resolver returns it immediately and
unchanged: the result is `.ok odata`, the local clock is untouched (no sleep
was invoked) and the trace holds only the two delay-computation queries. -/
theorem C8_ready_returns_immediately (env : ChainEnv) (s : Side)
    (odata : OperationalData) (t fuel : Nat)
    (h : (conn_delay_remaining env s odata t).1 = .ok (0, 0)) :
    wait_for_conn_delay env s (fuel + 1) odata t
      = (.ok odata, t, [Call.chain_time s t, Call.latest_height s t]) := by
  rw [wfc_succ_ok env s odata t fuel 0 0 h]
  simp

/-- Concrete capability fixture: constant chain time 100, max block time 7,
latest height 50, every call succeeding. -/
def envReady : ChainEnv :=
  ⟨fun _ => .ok 100, fun _ => .ok 7, fun _ => .ok 50⟩

/-- Concrete operational data with no outstanding delay under `envReady`. -/
def odReady : OperationalData := ⟨.src, [1, 2], 0, 0, 0, 0⟩

/-- Witness for C8 at a concrete input. -/
theorem C8_witness :
    wait_for_conn_delay envReady .src (0 + 1) odReady 0
      = (.ok odReady, 0, [Call.chain_time .src 0, Call.latest_height .src 0]) :=
  C8_ready_returns_immediately envReady .src odReady 0 0 (by rfl)

/-- The trace of `conn_delay_remaining` always begins with the chain-time
query issued at the current clock. -/
theorem cdr_trace_cons (env : ChainEnv) (s : Side) (od : OperationalData)
    (t : Nat) :
    ∃ l, (conn_delay_remaining env s od t).2 = Call.chain_time s t :: l := by
  unfold conn_delay_remaining
  cases hct : env.chain_time t with
  | error e => exact ⟨[], by simp⟩
  | ok now =>
    cases hlh : env.latest_height t with
    | error e => exact ⟨[Call.latest_height s t], by simp⟩
    | ok hh => exact ⟨[Call.latest_height s t], by simp⟩

/-- The trace of any run of `wait_for_conn_delay` with positive fuel begins
with a fresh chain-time query at the clock the run starts from. -/
theorem wfc_trace_cons (env : ChainEnv) (s : Side) (fuel : Nat)
    (od : OperationalData) (t : Nat) :
    ∃ l, (wait_for_conn_delay env s (fuel + 1) od t).2.2
      = Call.chain_time s t :: l := by
  obtain ⟨l0, hl0⟩ := cdr_trace_cons env s od t
  simp only [wait_for_conn_delay]
  cases hc : (conn_delay_remaining env s od t).1 with
  | error e => exact ⟨l0, by simp [hl0]⟩
  | ok v =>
    obtain ⟨a, b⟩ := v
    by_cases ha : a = 0
    · by_cases hb : b = 0
      · exact ⟨l0, by simp [ha, hb, hl0]⟩
      · by_cases hle : b ≤ U32_MAX
        · cases hm : env.max_block_time t with
          | error e =>
            exact ⟨l0 ++ [Call.max_block_time s t], by simp [ha, hb, hle, hm, hl0]⟩
          | ok mbt =>
            exact ⟨l0 ++ [Call.max_block_time s t, Call.sleep (b * mbt)],
                   by simp [ha, hb, hle, hm, hl0]⟩
        · exact ⟨l0, by simp [ha, hb, hle, hl0]⟩
    · exact ⟨l0 ++ [Call.sleep a]
               ++ (wait_for_conn_delay env s fuel od (t + a)).2.2,
             by simp [ha, hl0]⟩

/-- Concrete operational data whose remaining block count under `envReady`
is `4294967296 = 2 ^ 32`, one past the largest `u32` value. -/
def odOverflow : OperationalData := ⟨.src, [1], 0, 4294967346, 0, 0⟩

/-- C1, counterexample: at a remaining block count of `2 ^ 32` the resolver
does not surface an ordinary error value — it aborts with the
process-terminating panic of `expect`, refuting the claim's "not by
terminating the process". -/
theorem C1_counterexample :
    (wait_for_conn_delay envReady .src 1 odOverflow 0).1
      = .error (.panic ("blocks_left > u32::MAX")) := by rfl

/-- C1, amended: when the remaining block count exceeds `U32_MAX` (with the
remaining time delay zero), the resolver aborts with the explicit, distinct,
unrecoverable panic of `expect "blocks_left > u32::MAX"` — no silent
truncation or wraparound, no sleep, the clock untouched — but this is a
process-terminating abort, not a returned error value. -/
theorem C1_overflow_is_distinct_panic (env : ChainEnv) (s : Side)
    (odata : OperationalData) (t fuel b : Nat)
    (h : (conn_delay_remaining env s odata t).1 = .ok (0, b))
    (hover : U32_MAX < b) :
    wait_for_conn_delay env s (fuel + 1) odata t
      = (.error (.panic ("blocks_left > u32::MAX")), t,
         [Call.chain_time s t, Call.latest_height s t]) := by
  rw [wfc_succ_ok env s odata t fuel 0 b h]
  have hb : ¬ b = 0 := by omega
  have hle : ¬ b ≤ U32_MAX := by omega
  simp [hb, hle]

/-- Witness for the amended C1 at a concrete input. -/
theorem C1_witness :
    U32_MAX < 4294967296
    ∧ wait_for_conn_delay envReady .src (0 + 1) odOverflow 0
      = (.error (.panic ("blocks_left > u32::MAX")), 0,
         [Call.chain_time .src 0, Call.latest_height .src 0]) :=
  ⟨by decide,
   C1_overflow_is_distinct_panic envReady .src odOverflow 0 0 4294967296
     (by rfl) (by decide)⟩

/-- C4, counterexample: for remaining delays `(0, 2 ^ 32)` the block count is
positive, yet the resolver does not sleep and does not return the data — it
panics on the `u32` conversion, refuting the claim's universal "for every
positive N". -/
theorem C4_counterexample :
    (wait_for_conn_delay envReady .src 1 odOverflow 0).1 ≠ .ok odOverflow
    ∧ ((wait_for_conn_delay envReady .src 1 odOverflow 0).2.2).all
        (fun c => ! c.isSleep) = true := by
  constructor
  · intro hcontra
    exact absurd (C1_counterexample ▸ hcontra) (by simp)
  · rfl

/-- C4, amended: for remaining delays `(0, b)` with `b` positive and
representable in `u32`, the resolver re-queries the max block time, sleeps
exactly `b * d` where `d` is its fresh value, and returns the data unchanged;
the full trace holds exactly one latest-height query — the one inside the
initial delay computation — so the height is never re-queried. -/
theorem C4_height_wait_sleeps_once (env : ChainEnv) (s : Side)
    (odata : OperationalData) (t fuel b d : Nat)
    (h : (conn_delay_remaining env s odata t).1 = .ok (0, b))
    (hb : b ≠ 0) (hle : b ≤ U32_MAX)
    (hmbt : env.max_block_time t = .ok d) :
    wait_for_conn_delay env s (fuel + 1) odata t
      = (.ok odata, t + b * d,
         [Call.chain_time s t, Call.latest_height s t,
          Call.max_block_time s t, Call.sleep (b * d)])
    ∧ (((wait_for_conn_delay env s (fuel + 1) odata t).2.2).countP
        (fun c => c.isLatestHeight)) = 1 := by
  have h1 : wait_for_conn_delay env s (fuel + 1) odata t
      = (.ok odata, t + b * d,
         [Call.chain_time s t, Call.latest_height s t,
          Call.max_block_time s t, Call.sleep (b * d)]) := by
    rw [wfc_succ_ok env s odata t fuel 0 b h]
    simp [hb, hle, hmbt]
  refine ⟨h1, ?_⟩
  rw [h1]
  simp [List.countP_cons, Call.isLatestHeight]

/-- Concrete operational data whose remaining delays under `envReady` are
`(0, 3)`. -/
def odBlocks : OperationalData := ⟨.src, [1], 0, 53, 0, 0⟩

/-- Witness for the amended C4 at a concrete input. -/
theorem C4_witness :
    wait_for_conn_delay envReady .src (0 + 1) odBlocks 0
      = (.ok odBlocks, 0 + 3 * 7,
         [Call.chain_time .src 0, Call.latest_height .src 0,
          Call.max_block_time .src 0, Call.sleep (3 * 7)])
    ∧ (((wait_for_conn_delay envReady .src (0 + 1) odBlocks 0).2.2).countP
        (fun c => c.isLatestHeight)) = 1 :=
  C4_height_wait_sleeps_once envReady .src odBlocks 0 0 3 7
    (by rfl) (by decide) (by decide) (by rfl)

/-- C5: for a positive remaining time delay `T`, the resolver sleeps exactly
`T` and then its outcome, final clock and continuation trace are those of a
fresh run of the same algorithm on the same data at the post-sleep instant;
that fresh run begins with a new chain-time query at the new instant, so
both remaining quantities are re-derived from fresh capability calls and
nothing from the first evaluation is reused. -/
theorem C5_time_wait_recurses_fresh (env : ChainEnv) (s : Side)
    (odata : OperationalData) (t fuel T b : Nat)
    (h : (conn_delay_remaining env s odata t).1 = .ok (T, b))
    (hT : T ≠ 0) :
    wait_for_conn_delay env s (fuel + 1 + 1) odata t
      = ((wait_for_conn_delay env s (fuel + 1) odata (t + T)).1,
         (wait_for_conn_delay env s (fuel + 1) odata (t + T)).2.1,
         [Call.chain_time s t, Call.latest_height s t, Call.sleep T]
           ++ (wait_for_conn_delay env s (fuel + 1) odata (t + T)).2.2)
    ∧ ((wait_for_conn_delay env s (fuel + 1) odata (t + T)).2.2).take 1
        = [Call.chain_time s (t + T)] := by
  constructor
  · rw [wfc_succ_ok env s odata t (fuel + 1) T b h]
    simp [hT]
  · obtain ⟨l, hl⟩ := wfc_trace_cons env s fuel odata (t + T)
    rw [hl]
    rfl

/-- Concrete capability fixture whose chain time is the local clock itself:
each unit slept advances the observed chain time by one unit. -/
def envTick : ChainEnv := ⟨fun t => .ok t, fun _ => .ok 7, fun _ => .ok 0⟩

/-- Concrete operational data with a 50-unit wall-clock delay requirement
and no height requirement. -/
def odTime : OperationalData := ⟨.src, [1], 50, 0, 0, 0⟩

/-- Witness for C5 at a concrete input. -/
theorem C5_witness :
    wait_for_conn_delay envTick .src (0 + 1 + 1) odTime 0
      = ((wait_for_conn_delay envTick .src (0 + 1) odTime (0 + 50)).1,
         (wait_for_conn_delay envTick .src (0 + 1) odTime (0 + 50)).2.1,
         [Call.chain_time .src 0, Call.latest_height .src 0, Call.sleep 50]
           ++ (wait_for_conn_delay envTick .src (0 + 1) odTime (0 + 50)).2.2)
    ∧ ((wait_for_conn_delay envTick .src (0 + 1) odTime (0 + 50)).2.2).take 1
        = [Call.chain_time .src (0 + 50)] :=
  C5_time_wait_recurses_fresh envTick .src odTime 0 0 50 0 (by rfl) (by decide)

/-- Every evaluation of `conn_delay_remaining` contributes exactly one
chain-time query to the trace, so counting chain-time entries counts
evaluations. -/
theorem cdr_count_one (env : ChainEnv) (s : Side) (od : OperationalData)
    (t : Nat) :
    ((conn_delay_remaining env s od t).2).countP
      (fun c => c.isChainTime) = 1 := by
  unfold conn_delay_remaining
  cases hct : env.chain_time t with
  | error e => simp [Call.isChainTime]
  | ok now =>
    cases hlh : env.latest_height t with
    | error e => simp [Call.isChainTime]
    | ok hh => simp [Call.isChainTime]

/-- One-step unfolding of `wait_for_conn_delay` when the delay computation
itself fails: the error is propagated at once. -/
theorem wfc_cdr_error (env : ChainEnv) (s : Side) (od : OperationalData)
    (t fuel : Nat) (e : LinkError)
    (h : (conn_delay_remaining env s od t).1 = .error e) :
    wait_for_conn_delay env s (fuel + 1) od t
      = (.error (.link e), t, (conn_delay_remaining env s od t).2) := by
  simp only [wait_for_conn_delay]
  rw [h]

/-- Any zero-remaining-time entry into `wait_for_conn_delay` performs
exactly one delay evaluation (no recursion) and never exhausts the fuel. -/
theorem wfc_zero_time_once (env : ChainEnv) (s : Side) (od : OperationalData)
    (t fuel b : Nat)
    (h : (conn_delay_remaining env s od t).1 = .ok (0, b)) :
    (wait_for_conn_delay env s (fuel + 1) od t).1 ≠ .error .outOfFuel
    ∧ ((wait_for_conn_delay env s (fuel + 1) od t).2.2).countP
        (fun c => c.isChainTime) = 1 := by
  rw [wfc_succ_ok env s od t fuel 0 b h]
  by_cases hb : b = 0
  · simp [hb, Call.isChainTime]
  · by_cases hle : b ≤ U32_MAX
    · cases hm : env.max_block_time t with
      | error e => simp [hb, hle, hm, Call.isChainTime]
      | ok mbt => simp [hb, hle, hm, Call.isChainTime]
    · simp [hb, hle, Call.isChainTime]

/-- C6: the resolver's recursion terminates. First, when the remaining time
is zero (the immediately-ready and height-only branches) exactly one delay
evaluation happens, whatever the fuel: those branches never recurse, so a
recursive call is taken only from the positive-time branch. Second, from a
positive-time branch, under the spec's assumption that sleeping the full
remaining time drives the next chain-time measurement to the deadline, a
fuel budget of two evaluations is never exhausted and at most two
evaluations occur — at most one recursion follows any positive-time
branch. -/
theorem C6_recursion_terminates (env : ChainEnv) (s : Side)
    (odata : OperationalData) (t : Nat) :
    (∀ b fuel, (conn_delay_remaining env s odata t).1 = .ok (0, b) →
       ((wait_for_conn_delay env s (fuel + 1) odata t).2.2).countP
         (fun c => c.isChainTime) = 1)
    ∧ (∀ T b, (conn_delay_remaining env s odata t).1 = .ok (T, b) → T ≠ 0 →
        (∀ now, env.chain_time (t + T) = .ok now →
           odata.scheduled_time + odata.delay_duration ≤ now) →
        (wait_for_conn_delay env s (1 + 1) odata t).1 ≠ .error .outOfFuel
        ∧ ((wait_for_conn_delay env s (1 + 1) odata t).2.2).countP
            (fun c => c.isChainTime) ≤ 2) := by
  constructor
  · intro b fuel h
    exact (wfc_zero_time_once env s odata t fuel b h).2
  · intro T b h hT hnow
    rw [wfc_succ_ok env s odata t 1 T b h]
    simp only [hT, if_neg hT]
    cases hct2 : env.chain_time (t + T) with
    | error e =>
      have h2 : (conn_delay_remaining env s odata (t + T)).1 = .error e := by
        unfold conn_delay_remaining
        simp [hct2]
      have hi := wfc_cdr_error env s odata (t + T) 0 e h2
      rw [Nat.zero_add] at hi
      rw [hi]
      refine ⟨by simp, ?_⟩
      simp only [List.countP_append, Call.isChainTime]
      simp [List.countP_cons, Call.isChainTime]
      exact le_of_eq (cdr_count_one env s odata (t + T))
    | ok now =>
      cases hlh2 : env.latest_height (t + T) with
      | error e2 =>
        have h2 : (conn_delay_remaining env s odata (t + T)).1 = .error e2 := by
          unfold conn_delay_remaining
          simp [hct2, hlh2]
        have hi := wfc_cdr_error env s odata (t + T) 0 e2 h2
        rw [Nat.zero_add] at hi
        rw [hi]
        refine ⟨by simp, ?_⟩
        simp only [List.countP_append, Call.isChainTime]
        simp [List.countP_cons, Call.isChainTime]
        exact le_of_eq (cdr_count_one env s odata (t + T))
      | ok hh =>
        have h2 : (conn_delay_remaining env s odata (t + T)).1
            = .ok (0, odata.scheduled_height + odata.delay_blocks - hh) := by
          unfold conn_delay_remaining
          simp [hct2, hlh2, Nat.sub_eq_zero_of_le (hnow now hct2)]
        have hi := wfc_zero_time_once env s odata (t + T) 0
          (odata.scheduled_height + odata.delay_blocks - hh) h2
        rw [Nat.zero_add] at hi
        refine ⟨by simpa using hi.1, ?_⟩
        simp [List.countP_append, Call.isChainTime]
        exact le_of_eq hi.2

/-- Witness for C6: the height-only branch at a concrete input evaluates
once, and a concrete positive-time input under the tick clock terminates
within a fuel budget of two. -/
theorem C6_witness :
    ((wait_for_conn_delay envReady .src (0 + 1) odBlocks 0).2.2).countP
        (fun c => c.isChainTime) = 1
    ∧ ((wait_for_conn_delay envTick .src (1 + 1) odTime 0).1
         ≠ .error .outOfFuel
       ∧ ((wait_for_conn_delay envTick .src (1 + 1) odTime 0).2.2).countP
           (fun c => c.isChainTime) ≤ 2) :=
  ⟨(C6_recursion_terminates envReady .src odBlocks 0).1 3 0 (by rfl),
   (C6_recursion_terminates envTick .src odTime 0).2 50 0 (by rfl) (by decide)
     (fun now hnow => by
        simp only [envTick] at hnow
        injection hnow with h2
        simp [odTime, h2])⟩

/-- A run of `wait_for_conn_delay` bound to side `s` never touches a
capability of any other side. -/
theorem wfc_trace_on_side (env : ChainEnv) (s s2 : Side)
    (hne : (s == s2) = false) :
    ∀ fuel od t, ((wait_for_conn_delay env s fuel od t).2.2).all
      (fun c => ! c.onSide s2) = true := by
  intro fuel
  induction fuel with
  | zero => intro od t; simp [wait_for_conn_delay]
  | succ n ih =>
    intro od t
    have hcdr : ((conn_delay_remaining env s od t).2).all
        (fun c => ! c.onSide s2) = true := by
      unfold conn_delay_remaining
      cases hct : env.chain_time t with
      | error e => simp [Call.onSide, hne]
      | ok now =>
        cases hlh : env.latest_height t with
        | error e => simp [Call.onSide, hne]
        | ok hh => simp [Call.onSide, hne]
    simp only [wait_for_conn_delay]
    cases hc : (conn_delay_remaining env s od t).1 with
    | error e => simpa using hcdr
    | ok v =>
      obtain ⟨a, b⟩ := v
      by_cases ha : a = 0
      · by_cases hb : b = 0
        · simpa [ha, hb] using hcdr
        · by_cases hle : b ≤ U32_MAX
          · cases hm : env.max_block_time t with
            | error e =>
              simp [ha, hb, hle, hm, List.all_append, Call.onSide, hne]
              simpa using hcdr
            | ok mbt =>
              simp [ha, hb, hle, hm, List.all_append, Call.onSide, hne]
              simpa using hcdr
          · simpa [ha, hb, hle] using hcdr
      · have hrec := ih od (t + a)
        simp [ha, List.all_append, Call.onSide]
        constructor
        · simpa using hcdr
        · simpa using hrec

/-- C3: `fetch_scheduled_operational_data` always serves the front of the
source-side queue first, resolved against the source chain's capabilities,
with the destination queue untouched and no destination-side capability
invoked; it probes the destination queue only when the source queue is
empty; and when both queues are empty it returns a successful `none`, not an
error. -/
theorem C3_fetch_serves_src_first (rp : RelayPath) (fuel t : Nat) :
    (∀ od rest, rp.src_operational_data = od :: rest →
       fetch_scheduled_operational_data rp fuel t
         = ((wait_for_conn_delay rp.src_env .src fuel od t).1.map some,
            { rp with src_operational_data := rest },
            (wait_for_conn_delay rp.src_env .src fuel od t).2.1,
            [Call.fetch_scheduled]
              ++ (wait_for_conn_delay rp.src_env .src fuel od t).2.2)
       ∧ ((fetch_scheduled_operational_data rp fuel t).2.2.2).all
           (fun c => ! c.onSide .dst) = true)
    ∧ (rp.src_operational_data = [] →
       ∀ od rest, rp.dst_operational_data = od :: rest →
       fetch_scheduled_operational_data rp fuel t
         = ((wait_for_conn_delay rp.dst_env .dst fuel od t).1.map some,
            { rp with dst_operational_data := rest },
            (wait_for_conn_delay rp.dst_env .dst fuel od t).2.1,
            [Call.fetch_scheduled]
              ++ (wait_for_conn_delay rp.dst_env .dst fuel od t).2.2))
    ∧ (rp.src_operational_data = [] → rp.dst_operational_data = [] →
       fetch_scheduled_operational_data rp fuel t
         = (.ok none, rp, t, [Call.fetch_scheduled])) := by
  refine ⟨?_, ?_, ?_⟩
  · intro od rest hsrc
    have hall := wfc_trace_on_side rp.src_env .src .dst (by decide) fuel od t
    obtain ⟨so, dq, cd, se, de⟩ := rp
    simp only at hsrc
    subst hsrc
    constructor
    · simp [fetch_scheduled_operational_data]
    · simp [fetch_scheduled_operational_data, Call.onSide]
      simpa using hall
  · intro hsrc od rest hdst
    obtain ⟨so, dq, cd, se, de⟩ := rp
    simp only at hsrc hdst
    subst hsrc
    subst hdst
    simp [fetch_scheduled_operational_data]
  · intro hsrc hdst
    obtain ⟨so, dq, cd, se, de⟩ := rp
    simp only at hsrc hdst
    subst hsrc
    subst hdst
    simp [fetch_scheduled_operational_data]

/-- Concrete destination-targeted operational data with no delay. -/
def odDst : OperationalData := ⟨.dst, [3], 0, 0, 0, 0⟩

/-- Relay path with both queues non-empty. -/
def rpBoth : RelayPath := ⟨[odReady], [odDst], 0, envReady, envReady⟩

/-- Relay path with only the destination queue non-empty. -/
def rpDstOnly : RelayPath := ⟨[], [odDst], 0, envReady, envReady⟩

/-- Relay path with both queues empty. -/
def rpEmpty : RelayPath := ⟨[], [], 0, envReady, envReady⟩

/-- Witness for C3 at three concrete queue configurations. -/
theorem C3_witness :
    (fetch_scheduled_operational_data rpBoth 1 0
       = ((wait_for_conn_delay rpBoth.src_env .src 1 odReady 0).1.map some,
          { rpBoth with src_operational_data := [] },
          (wait_for_conn_delay rpBoth.src_env .src 1 odReady 0).2.1,
          [Call.fetch_scheduled]
            ++ (wait_for_conn_delay rpBoth.src_env .src 1 odReady 0).2.2)
       ∧ ((fetch_scheduled_operational_data rpBoth 1 0).2.2.2).all
           (fun c => ! c.onSide .dst) = true)
    ∧ (fetch_scheduled_operational_data rpDstOnly 1 0
       = ((wait_for_conn_delay rpDstOnly.dst_env .dst 1 odDst 0).1.map some,
          { rpDstOnly with dst_operational_data := [] },
          (wait_for_conn_delay rpDstOnly.dst_env .dst 1 odDst 0).2.1,
          [Call.fetch_scheduled]
            ++ (wait_for_conn_delay rpDstOnly.dst_env .dst 1 odDst 0).2.2))
    ∧ fetch_scheduled_operational_data rpEmpty 1 0
       = (.ok none, rpEmpty, 0, [Call.fetch_scheduled]) :=
  ⟨(C3_fetch_serves_src_first rpBoth 1 0).1 odReady [] rfl,
   (C3_fetch_serves_src_first rpDstOnly 1 0).2.1 rfl odDst [] rfl,
   (C3_fetch_serves_src_first rpEmpty 1 0).2.2 rfl rfl⟩

/-- C10: `fetch_scheduled_operational_data` is not atomic on error. The
operational data is popped before delay resolution runs, so when the
resolver fails the error is returned with the popped batch already removed
from its queue — the returned state holds only the rest of that queue and
the untouched other queue, with the batch nowhere re-enqueued. -/
theorem C10_fetch_pops_before_resolving (rp : RelayPath) (fuel t : Nat)
    (e : RError) :
    (∀ od rest, rp.src_operational_data = od :: rest →
       (wait_for_conn_delay rp.src_env .src fuel od t).1 = .error e →
       (fetch_scheduled_operational_data rp fuel t).1 = .error e
       ∧ (fetch_scheduled_operational_data rp fuel t).2.1.src_operational_data
           = rest
       ∧ (fetch_scheduled_operational_data rp fuel t).2.1.dst_operational_data
           = rp.dst_operational_data)
    ∧ (∀ od rest, rp.src_operational_data = [] →
       rp.dst_operational_data = od :: rest →
       (wait_for_conn_delay rp.dst_env .dst fuel od t).1 = .error e →
       (fetch_scheduled_operational_data rp fuel t).1 = .error e
       ∧ (fetch_scheduled_operational_data rp fuel t).2.1.dst_operational_data
           = rest
       ∧ (fetch_scheduled_operational_data rp fuel t).2.1.src_operational_data
           = []) := by
  constructor
  · intro od rest hsrc herr
    obtain ⟨so, dq, cd, se, de⟩ := rp
    simp only at hsrc herr
    subst hsrc
    simp [fetch_scheduled_operational_data, herr, Except.map]
  · intro od rest hsrc hdst herr
    obtain ⟨so, dq, cd, se, de⟩ := rp
    simp only at hsrc hdst herr
    subst hsrc
    subst hdst
    simp [fetch_scheduled_operational_data, herr, Except.map]

/-- Capability fixture whose every call fails with error code 42. -/
def envFail : ChainEnv :=
  ⟨fun _ => .error ⟨42⟩, fun _ => .error ⟨42⟩, fun _ => .error ⟨42⟩⟩

/-- Relay path whose source queue holds one batch over failing
capabilities. -/
def rpFail : RelayPath := ⟨[odReady], [odDst], 0, envFail, envFail⟩

/-- Witness for C10 at a concrete failing input. -/
theorem C10_witness :
    (fetch_scheduled_operational_data rpFail 1 0).1 = .error (.link ⟨42⟩)
    ∧ (fetch_scheduled_operational_data rpFail 1 0).2.1.src_operational_data
        = []
    ∧ (fetch_scheduled_operational_data rpFail 1 0).2.1.dst_operational_data
        = rpFail.dst_operational_data :=
  (C10_fetch_pops_before_resolving rpFail 1 0 (.link ⟨42⟩)).1 odReady [] rfl
    (by rfl)

/-- C2: for a channel whose connection delay is non-zero, both relay
commands halt with the unrecoverable panic abort (not an ordinary error
value), and the empty trace shows the abort happens before any capability —
in particular any query — is invoked. -/
theorem C2_nonzero_delay_aborts (lenv : LinkEnv) (link : Link)
    (rfuel dfuel t : Nat)
    (h : link.a_to_b.connection_delay ≠ 0) :
    relay_recv_packet_and_timeout_messages lenv link
      = (.error (.panic ("please use the passive relaying mode (`hermes start`)")),
         [])
    ∧ relay_ack_packet_messages lenv link rfuel dfuel t
      = (.error (.panic ("please use the passive relaying mode (`hermes start`)")),
         link, t, []) := by
  constructor
  · simp [relay_recv_packet_and_timeout_messages, h]
  · simp [relay_ack_packet_messages, h]

/-- Link-capability fixture: empty query results, every call succeeding. -/
def lenvEmpty : LinkEnv :=
  ⟨.ok ([], 0), .ok ([], 0), fun _ _ => [], fun _ => .ok [],
   fun _ => .ok ([], []), fun _ => .ok []⟩

/-- Link over a path with connection delay 1. -/
def linkDelayed : Link := ⟨⟨[], [], 1, envReady, envReady⟩⟩

/-- Witness for C2 at a concrete non-zero-delay link. -/
theorem C2_witness :
    relay_recv_packet_and_timeout_messages lenvEmpty linkDelayed
      = (.error (.panic ("please use the passive relaying mode (`hermes start`)")),
         [])
    ∧ relay_ack_packet_messages lenvEmpty linkDelayed 1 1 0
      = (.error (.panic ("please use the passive relaying mode (`hermes start`)")),
         linkDelayed, 0, []) :=
  C2_nonzero_delay_aborts lenvEmpty linkDelayed 1 1 0 (by decide)

/-- C9: on a zero-delay channel, when the unreceived-sequences query of
either command answers with an empty sequence set, that command returns an
empty event list successfully; the trace holds only the initial query, so
no events are fetched and nothing is relayed. -/
theorem C9_empty_sequences_return_empty (lenv : LinkEnv) (link : Link)
    (rfuel dfuel t h1 h2 : Nat)
    (hz : link.a_to_b.connection_delay = 0)
    (hp : lenv.unreceived_packets = .ok ([], h1))
    (ha : lenv.unreceived_acknowledgements = .ok ([], h2)) :
    relay_recv_packet_and_timeout_messages lenv link
      = (.ok [], [Call.unreceived_packets])
    ∧ relay_ack_packet_messages lenv link rfuel dfuel t
      = (.ok [], link, t, [Call.unreceived_acknowledgements]) := by
  constructor
  · simp [relay_recv_packet_and_timeout_messages, hz, hp]
  · simp [relay_ack_packet_messages, hz, ha]

/-- Link over a path with connection delay 0. -/
def linkZero : Link := ⟨⟨[], [], 0, envReady, envReady⟩⟩

/-- Witness for C9 at a concrete link with empty query answers. -/
theorem C9_witness :
    relay_recv_packet_and_timeout_messages lenvEmpty linkZero
      = (.ok [], [Call.unreceived_packets])
    ∧ relay_ack_packet_messages lenvEmpty linkZero 1 1 0
      = (.ok [], linkZero, 0, [Call.unreceived_acknowledgements]) :=
  C9_empty_sequences_return_empty lenvEmpty linkZero 1 1 0 0 0 (by rfl)
    (by rfl) (by rfl)

/-- When every submission succeeds, relaying a list of operational data
yields, in order, the concatenation of the produced events, invoking the
submission capability once per batch in list order. -/
theorem relay_od_list_ok (lenv : LinkEnv) (g : OperationalData → List Nat)
    (hg : ∀ od, lenv.relay_from_operational_data od = .ok (g od)) :
    ∀ ods, relay_od_list lenv ods
      = (.ok (ods.flatMap g),
         ods.map (fun od => Call.relay_from_operational_data od))
  | [] => by simp [relay_od_list]
  | od :: ods => by
    have ih := relay_od_list_ok lenv g hg ods
    simp [relay_od_list, hg od, ih, Except.map]

/-- When the ingestion and submission capabilities always succeed and the
queues start empty, the per-chunk loop of the acknowledgement command
processes each chunk as: convert-and-enqueue, non-blocking drain, relay the
destination-bound batches, then the source-bound batches — leaving the
queues empty again. -/
theorem relay_chunks_ack_ok (lenv : LinkEnv)
    (fS fD : List Nat → List OperationalData) (g : OperationalData → List Nat)
    (hE : ∀ c, lenv.events_to_od c = .ok (fS c, fD c))
    (hg : ∀ od, lenv.relay_from_operational_data od = .ok (g od)) :
    ∀ chunks (rp : RelayPath), rp.src_operational_data = [] →
      rp.dst_operational_data = [] →
      relay_chunks_ack lenv rp chunks
        = (.ok (chunks.flatMap fun c => (fD c).flatMap g ++ (fS c).flatMap g),
           rp,
           chunks.flatMap fun c =>
             [Call.events_to_operational_data c, Call.try_fetch]
               ++ (fD c).map (fun od => Call.relay_from_operational_data od)
               ++ (fS c).map (fun od => Call.relay_from_operational_data od)) := by
  intro chunks
  induction chunks with
  | nil =>
    intro rp hs hd
    obtain ⟨so, dq, cd, se, de⟩ := rp
    simp only at hs hd
    subst hs
    subst hd
    simp [relay_chunks_ack]
  | cons c cs ih =>
    intro rp hs hd
    obtain ⟨so, dq, cd, se, de⟩ := rp
    simp only at hs hd
    subst hs
    subst hd
    have ihh := ih ⟨[], [], cd, se, de⟩ rfl rfl
    simp [relay_chunks_ack, events_to_operational_data, hE c,
          try_fetch_scheduled_operational_data,
          relay_od_list_ok lenv g hg, ihh, Except.map]

/-- C7: in `relay_ack_packet_messages`, each event chunk is first converted
to operational data and enqueued, then drained via the non-blocking fetch,
with the destination-bound batches relayed before the source-bound batches
— the trace shows, per chunk, the conversion call, then the non-blocking
fetch, then the destination relays, then the source relays; after all
chunks, the final safety drain calls the blocking scheduled fetch,
relaying every batch it returns, until it answers none — here immediately,
since the per-chunk drains left both queues empty. -/
theorem C7_ack_enqueue_drain_order (lenv : LinkEnv) (link : Link)
    (rfuel dfuel t : Nat) (seqs : List Nat) (h : Nat)
    (fS fD : List Nat → List OperationalData) (g : OperationalData → List Nat)
    (hz : link.a_to_b.connection_delay = 0)
    (hs : link.a_to_b.src_operational_data = [])
    (hd : link.a_to_b.dst_operational_data = [])
    (hacks : lenv.unreceived_acknowledgements = .ok (seqs, h))
    (hne : seqs.isEmpty = false)
    (hE : ∀ c, lenv.events_to_od c = .ok (fS c, fD c))
    (hg : ∀ od, lenv.relay_from_operational_data od = .ok (g od)) :
    relay_ack_packet_messages lenv link rfuel (dfuel + 1) t
      = (.ok ((lenv.query_packet_events_with seqs h).flatMap
                fun c => (fD c).flatMap g ++ (fS c).flatMap g),
         link, t,
         [Call.unreceived_acknowledgements, Call.query_packet_events seqs h]
           ++ ((lenv.query_packet_events_with seqs h).flatMap
                fun c =>
                  [Call.events_to_operational_data c, Call.try_fetch]
                    ++ (fD c).map (fun od => Call.relay_from_operational_data od)
                    ++ (fS c).map (fun od => Call.relay_from_operational_data od))
           ++ [Call.fetch_scheduled]) := by
  obtain ⟨rp⟩ := link
  obtain ⟨so, dq, cd, se, de⟩ := rp
  simp only at hz hs hd
  subst hz
  subst hs
  subst hd
  have hch := relay_chunks_ack_ok lenv fS fD g hE hg
    (lenv.query_packet_events_with seqs h) ⟨[], [], 0, se, de⟩ rfl rfl
  simp [relay_ack_packet_messages, hacks, hne, hch, drain_loop,
        fetch_scheduled_operational_data, Except.map]

/-- Source-side operational data produced for a chunk by the concrete
ingestion fixture. -/
def fSW (c : List Nat) : List OperationalData := [⟨.src, c, 0, 0, 0, 0⟩]

/-- Destination-side operational data produced for a chunk by the concrete
ingestion fixture. -/
def fDW (c : List Nat) : List OperationalData := [⟨.dst, c, 0, 0, 0, 0⟩]

/-- Events emitted by the concrete submission fixture: the batch itself. -/
def gW (od : OperationalData) : List Nat := od.batch

/-- Link-capability fixture for the acknowledgement flow: two unreceived
acknowledgement sequences answered at height 10, two event chunks, and
always-succeeding ingestion and submission. -/
def lenvAck : LinkEnv :=
  ⟨.ok ([], 0), .ok ([5, 6], 10), (fun _ _ => [[1], [2]]), fun _ => .ok [],
   fun c => .ok (fSW c, fDW c), fun od => .ok (gW od)⟩

/-- Witness for C7 at a concrete two-chunk acknowledgement run. -/
theorem C7_witness :
    relay_ack_packet_messages lenvAck linkZero 1 (0 + 1) 0
      = (.ok ((lenvAck.query_packet_events_with [5, 6] 10).flatMap
                fun c => (fDW c).flatMap gW ++ (fSW c).flatMap gW),
         linkZero, 0,
         [Call.unreceived_acknowledgements, Call.query_packet_events [5, 6] 10]
           ++ ((lenvAck.query_packet_events_with [5, 6] 10).flatMap
                fun c =>
                  [Call.events_to_operational_data c, Call.try_fetch]
                    ++ (fDW c).map (fun od => Call.relay_from_operational_data od)
                    ++ (fSW c).map (fun od => Call.relay_from_operational_data od))
           ++ [Call.fetch_scheduled]) :=
  C7_ack_enqueue_drain_order lenvAck linkZero 1 0 0 [5, 6] 10 fSW fDW gW
    (by rfl) (by rfl) (by rfl) (by rfl) (by rfl)
    (fun c => rfl) (fun od => rfl)

end HermesLink
